import Mathlib

/-!
# Pronunciation Assessment Engine — verification development

Shallow embedding of the pronunciation analysis service
(`ai-services/speech-recognition/src/services/pronunciation_analyzer.py`).

Python floats are modelled as `ℚ`; the external panphon feature-vector
capability is a parameter (`PhonEnv`); a Python method call that may raise
is modelled as `Except Unit`.  All definitions follow the source line by
line; field and function names keep the source's names (without the
leading underscore of Python private methods).
-/

set_option autoImplicit false

namespace PronunciationAnalyzer

/-! ## String helpers (Python `str.lower()` / `str.split()`) -/

/-- Model of Python `str.lower()`: the character-wise case map applied to the
string's characters (Lean's `Char.toLower`, which covers the ASCII range; all
units appearing in the claims are unaffected by the non-ASCII difference). -/
def pyLower (s : String) : String := String.mk (s.data.map Char.toLower)

/-- Whitespace test used by Python `str.split()` with no separator. -/
def isSpaceChar (c : Char) : Bool := c == ' ' || c == '\t' || c == '\n' || c == '\r'

/-- Accumulator pass of `pySplit`: split a character list on runs of
whitespace, producing no empty words (Python `str.split()` semantics). -/
def splitWS : List Char → List Char → List String
  | [], acc => if acc = [] then [] else [String.mk acc.reverse]
  | c :: cs, acc =>
    if isSpaceChar c then
      (if acc = [] then splitWS cs [] else String.mk acc.reverse :: splitWS cs [])
    else splitWS cs (c :: acc)

/-- Model of Python `str.split()` with no separator: words are maximal runs of
non-whitespace characters; consecutive separators produce no empty words. -/
def pySplit (text : String) : List String := splitWS text.data []

/-! ## Phoneme similarity (`_calculate_phoneme_similarity`) -/

/-- Environment abstracting the external panphon feature-vector capability used
by `_calculate_phoneme_similarity`: `featSim a b = some s` stands for "both
units have a feature encoding with positive norm and their cosine similarity
is `s`" (source lines 476–486); `none` stands for "no encoding exists for at
least one unit (or a zero-norm vector)", which sends the source to its
string-comparison fallback. -/
structure PhonEnv where
  featSim : String → String → Option ℚ

/-- Embedding of `_calculate_phoneme_similarity` (source lines 466–493):
exact equality gives `1.0`; an empty unit on either side gives `0.0`;
otherwise the clamped feature-vector similarity when the encoding exists,
else `1.0` on case-insensitive match and `0.3` otherwise.  The enclosing
`try/except → 0.5` guards failures of the external library, which the total
model folds into `featSim`'s `Option`. -/
def calculate_phoneme_similarity (env : PhonEnv) (ref_phoneme actual_phoneme : String) : ℚ :=
  if ref_phoneme = actual_phoneme then 1
  else if ref_phoneme = "" ∨ actual_phoneme = "" then 0
  else
    match env.featSim ref_phoneme actual_phoneme with
    | some s => max 0 (min 1 s)
    | none => if pyLower ref_phoneme = pyLower actual_phoneme then 1 else 0.3

/-! ## Alignment (`_align_phonetics`) -/

/-- Alignment triple `(reference unit, actual unit, similarity)` as produced by
`_align_phonetics` (a Python tuple in the source). -/
structure AlignmentEntry where
  ref : String
  act : String
  similarity : ℚ
deriving DecidableEq, Repr

/-- Cost matrix of `_align_phonetics` (source lines 402–420): `C[0][j] = j`,
`C[i][0] = i`, and each inner cell is the minimum of the substitution,
insertion and deletion costs. -/
def costMatrix (sim : String → String → ℚ) (reference actual : List String) :
    ℕ → ℕ → ℚ
  | 0, j => (j : ℚ)
  | i + 1, 0 => (i + 1 : ℕ)
  | i + 1, j + 1 =>
    let similarity := sim (reference.getD i "") (actual.getD j "")
    let substitution_cost := costMatrix sim reference actual i j + (1 - similarity)
    let insertion_cost := costMatrix sim reference actual (i + 1) j + 1
    let deletion_cost := costMatrix sim reference actual i (j + 1) + 1
    min (min substitution_cost insertion_cost) deletion_cost
termination_by i j => i + j

/-- Backtracking phase of `_align_phonetics` (source lines 422–453), including
the two trailing loops that drain whichever sequence remains.  The entries are
produced back to front, exactly as the Python loop appends them before the
final `reverse`. -/
def backtrack (sim : String → String → ℚ) (reference actual : List String) :
    ℕ → ℕ → List AlignmentEntry
  | i + 1, j + 1 =>
    let s := sim (reference.getD i "") (actual.getD j "")
    if costMatrix sim reference actual (i + 1) (j + 1) =
        costMatrix sim reference actual i j + (1 - s) then
      ⟨reference.getD i "", actual.getD j "", s⟩ :: backtrack sim reference actual i j
    else if costMatrix sim reference actual (i + 1) (j + 1) =
        costMatrix sim reference actual (i + 1) j + 1 then
      ⟨"", actual.getD j "", 0⟩ :: backtrack sim reference actual (i + 1) j
    else
      ⟨reference.getD i "", "", 0⟩ :: backtrack sim reference actual i (j + 1)
  | i + 1, 0 => ⟨reference.getD i "", "", 0⟩ :: backtrack sim reference actual i 0
  | 0, j + 1 => ⟨"", actual.getD j "", 0⟩ :: backtrack sim reference actual 0 j
  | 0, 0 => []
termination_by i j => i + j

/-- Dynamic-programming path of `_align_phonetics`: fill the cost matrix,
backtrack from `(|ref|, |act|)`, then reverse to restore left-to-right order
(source line 455). -/
def alignDP (sim : String → String → ℚ) (reference actual : List String) :
    List AlignmentEntry :=
  (backtrack sim reference actual reference.length actual.length).reverse

/-- Exception fallback of `_align_phonetics` (source lines 458–464): naive 1:1
positional pairing at fixed similarity `0.5`, padding the shorter sequence
with empty units. -/
def fallback_alignment (reference actual : List String) : List AlignmentEntry :=
  (List.range (max reference.length actual.length)).map fun i =>
    ⟨if i < reference.length then reference.getD i "" else "",
     if i < actual.length then actual.getD i "" else "",
     0.5⟩

/-- Whether an effectful similarity call returned normally. -/
def exceptOk (e : Except Unit ℚ) : Bool :=
  match e with
  | .ok _ => true
  | .error _ => false

/-- Embedding of `_align_phonetics` (source lines 395–464).  The similarity
method is passed as an effectful parameter `simE`; the `try/except` of the
source is modelled by the guard: the dynamic-programming fill evaluates the
similarity on every pair `(reference[i], actual[j])`, so an exception occurs
during the `try` block exactly when some pair's call fails, and in that case
the naive fallback is returned instead. -/
def align_phonetics (simE : String → String → Except Unit ℚ)
    (reference actual : List String) : List AlignmentEntry :=
  if reference.all (fun r => actual.all fun a => exceptOk (simE r a)) then
    alignDP (fun r a => ((simE r a).toOption).getD 0) reference actual
  else
    fallback_alignment reference actual

/-- The similarity method as actually invoked by the analyzer: a total call to
`_calculate_phoneme_similarity`, which never raises (it catches its own
exceptions internally, source lines 491–493). -/
def simOk (env : PhonEnv) : String → String → Except Unit ℚ :=
  fun r a => Except.ok (calculate_phoneme_similarity env r a)

/-- Environment in which no phonetic feature encoding is available (the
external capability is absent for the language — degraded mode). -/
def envNone : PhonEnv := ⟨fun _ _ => none⟩

/-! ## Phoneme-level analysis (`_analyze_phonemes`) -/

/-- Result record of `_analyze_phonemes` (model `PhonemeAnalysis` of
`speech_models.py`). -/
structure PhonemeAnalysis where
  phoneme : String
  expected : String
  actual : String
  accuracy_score : ℚ
  feedback : String
  is_critical : Bool
deriving DecidableEq, Repr

/-- Embedding of `_generate_phoneme_feedback` (source lines 785–791). -/
def generate_phoneme_feedback (ref_phoneme : String) (similarity : ℚ) : String :=
  if similarity > 0.8 then "Excellent pronunciation"
  else if similarity > 0.6 then "Good, with minor adjustments needed"
  else "Practice the " ++ ref_phoneme ++ " sound more"

/-- Embedding of `_analyze_phonemes` (source lines 495–534): walk the
alignment, skip insertions (empty reference side), and record one analysis per
remaining entry; an empty actual side is reported as `"?"`; `_is_critical_phoneme`
returns `True` (source line 795).  The `focus_phonemes` check of the source is
computed but never stored, so it does not affect the result. -/
def analyze_phonemes (alignment : List AlignmentEntry)
    (focus_phonemes : Option (List String)) : List PhonemeAnalysis :=
  alignment.filterMap fun e =>
    if e.ref = "" then none
    else some
      { phoneme := e.ref
        expected := e.ref
        actual := if e.act = "" then "?" else e.act
        accuracy_score := e.similarity
        feedback := generate_phoneme_feedback e.ref e.similarity
        is_critical := true }

/-! ## Word-level analysis (`_analyze_words`) -/

/-- Result record of `_analyze_words` (model `WordAnalysis` of
`speech_models.py`). -/
structure WordAnalysis where
  word : String
  start_time : ℚ
  end_time : ℚ
  accuracy_score : ℚ
  stress_pattern : String
  phonemes : List PhonemeAnalysis
  suggestions : List String
deriving DecidableEq, Repr

/-- Default record used only for out-of-range list indexing in statements. -/
def defaultWordAnalysis : WordAnalysis :=
  { word := "", start_time := 0, end_time := 0, accuracy_score := 0,
    stress_pattern := "", phonemes := [], suggestions := [] }

/-- Embedding of `_estimate_phoneme_count` (source lines 802–804):
`max(1, len(word) // 2)`. -/
def estimate_phoneme_count (word : String) : ℕ := max 1 (word.length / 2)

/-- Loop body of `_analyze_words` (source lines 559–602): walk the words,
slice `word_phoneme_count` analyses starting at the running `phoneme_idx`,
average their accuracy scores (`0.5` for an empty slice), and attach the
proportional timing boundaries from `_estimate_word_boundaries` (source lines
797–800) and the stub stress pattern and suggestions (source lines 806–810). -/
def analyze_words_go (phoneme_analyses : List PhonemeAnalysis) (word_duration : ℚ) :
    List String → ℕ → ℕ → List WordAnalysis
  | [], _, _ => []
  | word :: rest, i, phoneme_idx =>
    let word_phoneme_count := estimate_phoneme_count word
    let word_phonemes := (phoneme_analyses.drop phoneme_idx).take word_phoneme_count
    let accuracy_score : ℚ :=
      if word_phonemes = [] then 0.5
      else ((word_phonemes.map fun p => p.accuracy_score).sum) / word_phonemes.length
    { word := word
      start_time := i * word_duration
      end_time := (i + 1) * word_duration
      accuracy_score := accuracy_score
      stress_pattern := "normal"
      phonemes := word_phonemes
      suggestions := ["Practice this word more slowly"] } ::
      analyze_words_go phoneme_analyses word_duration rest (i + 1)
        (phoneme_idx + word_phoneme_count)

/-- Embedding of `_analyze_words` (source lines 540–608).  The words are the
whitespace split of the reference text; with no words, the boundary estimate
divides by zero, the exception is caught and the empty list returned (source
lines 606–608, via line 799). -/
def analyze_words (reference_text : String) (phoneme_analyses : List PhonemeAnalysis)
    (duration : ℚ) : List WordAnalysis :=
  let words := pySplit reference_text
  if words = [] then []
  else analyze_words_go phoneme_analyses (duration / (words.length : ℚ)) words 0 0

/-! ## Utterance scoring (`_calculate_scores`, `_determine_quality_rating`,
`_estimate_fsi_level`) -/

/-- Score dictionary returned by `_calculate_scores` (source lines 610–668).
The fluency, rhythm, intonation, clarity and pause figures come from the stub
helpers (source lines 812–825) and are constants. -/
structure ScoreDict where
  overall_score : ℚ
  fluency_score : ℚ
  rhythm_score : ℚ
  intonation_score : ℚ
  clarity_score : ℚ
  pause_frequency : ℚ
  average_pause_duration : ℚ
deriving DecidableEq, Repr

/-- Embedding of `_calculate_scores` (source lines 610–668): all zeros when
there are no word analyses, otherwise the overall score is the mean of the
word accuracy scores and the remaining figures are the stub constants. -/
def calculate_scores (word_analyses : List WordAnalysis) : ScoreDict :=
  if word_analyses = [] then ⟨0, 0, 0, 0, 0, 0, 0⟩
  else
    { overall_score :=
        ((word_analyses.map fun w => w.accuracy_score).sum) / word_analyses.length
      fluency_score := 0.8
      rhythm_score := 0.7
      intonation_score := 0.75
      clarity_score := 0.85
      pause_frequency := 2.0
      average_pause_duration := 0.5 }

/-- Quality levels (`PronunciationQuality` of `speech_models.py`). -/
inductive PronunciationQuality where
  | excellent
  | good
  | fair
  | poor
  | very_poor
deriving DecidableEq, Repr

/-- Embedding of `_determine_quality_rating` (source lines 678–689). -/
def determine_quality_rating (score : ℚ) : PronunciationQuality :=
  if score ≥ 0.90 then .excellent
  else if score ≥ 0.75 then .good
  else if score ≥ 0.60 then .fair
  else if score ≥ 0.40 then .poor
  else .very_poor

/-- FSI scoring threshold table `self.fsi_thresholds` (source lines 57–69),
as `(level, threshold)` pairs in the dictionary's insertion order. -/
def fsi_thresholds : List (ℚ × ℚ) :=
  [(0.0, 0.0), (0.5, 0.3), (1.0, 0.45), (1.5, 0.55), (2.0, 0.65), (2.5, 0.73),
   (3.0, 0.80), (3.5, 0.85), (4.0, 0.90), (4.5, 0.95), (5.0, 0.98)]

/-- Loop of `_estimate_fsi_level`: return the first level of the given table
whose threshold the score meets, else `0.0`. -/
def estimate_go (overall_score : ℚ) : List (ℚ × ℚ) → ℚ
  | [] => 0
  | (level, threshold) :: rest =>
    if threshold ≤ overall_score then level else estimate_go overall_score rest

/-- Embedding of `_estimate_fsi_level` (source lines 670–676): iterate over the
levels in descending order (`sorted(keys, reverse=True)`, the reverse of the
table's ascending insertion order) and return the first level whose threshold
is at most the score, else `0.0`. -/
def estimate_fsi_level (overall_score : ℚ) : ℚ :=
  estimate_go overall_score fsi_thresholds.reverse

/-! ## Derived notions used only to state the claims -/

/-- Non-insertion entries of an alignment: those with a non-empty reference
side (the entries `_analyze_phonemes` keeps). -/
def nonInsertion (alignment : List AlignmentEntry) : List AlignmentEntry :=
  alignment.filter fun e => ¬ e.ref = ""

/-- Index of the first phoneme analysis attributed to word `i`: the total
phoneme-count estimate of the preceding words. -/
def attributedStart (words : List String) (i : ℕ) : ℕ :=
  ((words.take i).map estimate_phoneme_count).sum

/-- The non-insertion alignment entries attributed to word `i`: the contiguous
block of `estimate_phoneme_count` entries starting at `attributedStart`, as
`_analyze_words` slices them. -/
def attributedSlice (alignment : List AlignmentEntry) (words : List String) (i : ℕ) :
    List AlignmentEntry :=
  ((nonInsertion alignment).drop (attributedStart words i)).take
    (estimate_phoneme_count (words.getD i ""))

/-- The failing similarity method: every call raises (used to exercise the
exception fallback of `_align_phonetics`). -/
def simBad : String → String → Except Unit ℚ := fun _ _ => Except.error ()

/-- The identical four-unit example sequence of the specification. -/
def helloUnits : List String := ["h", "ə", "l", "oʊ"]

end PronunciationAnalyzer

namespace PronunciationAnalyzer

/-! ## Basic facts about the similarity function -/

theorem sim_self (env : PhonEnv) (a : String) :
    calculate_phoneme_similarity env a a = 1 := by
  simp [calculate_phoneme_similarity]

theorem sim_le_one (env : PhonEnv) (a b : String) :
    calculate_phoneme_similarity env a b ≤ 1 := by
  unfold calculate_phoneme_similarity
  split
  · exact le_refl 1
  · split
    · norm_num
    · split
      · exact max_le (by norm_num) (min_le_left 1 _)
      · split <;> norm_num

theorem sim_nonneg (env : PhonEnv) (a b : String) :
    0 ≤ calculate_phoneme_similarity env a b := by
  unfold calculate_phoneme_similarity
  split
  · norm_num
  · split
    · norm_num
    · split
      · exact le_max_left 0 _
      · split <;> norm_num

/-! ## Equation lemmas for the cost matrix and the backtracking pass -/

theorem costMatrix_zero_left (sim : String → String → ℚ) (reference actual : List String)
    (j : ℕ) : costMatrix sim reference actual 0 j = (j : ℚ) := by
  cases j <;> simp [costMatrix]

theorem costMatrix_succ_zero (sim : String → String → ℚ) (reference actual : List String)
    (i : ℕ) : costMatrix sim reference actual (i + 1) 0 = ((i + 1 : ℕ) : ℚ) := by
  simp [costMatrix]

theorem costMatrix_succ_succ (sim : String → String → ℚ) (reference actual : List String)
    (i j : ℕ) :
    costMatrix sim reference actual (i + 1) (j + 1) =
      min (min (costMatrix sim reference actual i j +
            (1 - sim (reference.getD i "") (actual.getD j "")))
          (costMatrix sim reference actual (i + 1) j + 1))
        (costMatrix sim reference actual i (j + 1) + 1) := by
  rw [costMatrix]

theorem backtrack_zero_zero (sim : String → String → ℚ) (reference actual : List String) :
    backtrack sim reference actual 0 0 = [] := by
  rw [backtrack]

theorem backtrack_succ_zero (sim : String → String → ℚ) (reference actual : List String)
    (i : ℕ) :
    backtrack sim reference actual (i + 1) 0 =
      ⟨reference.getD i "", "", 0⟩ :: backtrack sim reference actual i 0 := by
  rw [backtrack]

theorem backtrack_zero_succ (sim : String → String → ℚ) (reference actual : List String)
    (j : ℕ) :
    backtrack sim reference actual 0 (j + 1) =
      ⟨"", actual.getD j "", 0⟩ :: backtrack sim reference actual 0 j := by
  rw [backtrack]

theorem backtrack_succ_succ (sim : String → String → ℚ) (reference actual : List String)
    (i j : ℕ) :
    backtrack sim reference actual (i + 1) (j + 1) =
      (if costMatrix sim reference actual (i + 1) (j + 1) =
          costMatrix sim reference actual i j +
            (1 - sim (reference.getD i "") (actual.getD j "")) then
        ⟨reference.getD i "", actual.getD j "", sim (reference.getD i "") (actual.getD j "")⟩ ::
          backtrack sim reference actual i j
      else if costMatrix sim reference actual (i + 1) (j + 1) =
          costMatrix sim reference actual (i + 1) j + 1 then
        ⟨"", actual.getD j "", 0⟩ :: backtrack sim reference actual (i + 1) j
      else
        ⟨reference.getD i "", "", 0⟩ :: backtrack sim reference actual i (j + 1)) := by
  rw [backtrack]

/-! ## Nonnegativity and the identical-sequence diagonal -/

theorem costMatrix_nonneg (sim : String → String → ℚ) (reference actual : List String)
    (h1 : ∀ a b, sim a b ≤ 1) :
    ∀ i j, 0 ≤ costMatrix sim reference actual i j := by
  intro i
  induction i with
  | zero =>
    intro j
    rw [costMatrix_zero_left]
    exact_mod_cast Nat.zero_le j
  | succ i ih =>
    intro j
    induction j with
    | zero =>
      rw [costMatrix_succ_zero]
      exact_mod_cast Nat.zero_le (i + 1)
    | succ j ihj =>
      rw [costMatrix_succ_succ]
      have hs := h1 (reference.getD i "") (actual.getD j "")
      have h₁ := ih j
      have h₂ := ih (j + 1)
      refine le_min (le_min ?_ ?_) ?_ <;> linarith

theorem costMatrix_diag (sim : String → String → ℚ) (l : List String)
    (h1 : ∀ a b, sim a b ≤ 1) (hself : ∀ a, sim a a = 1) :
    ∀ i, costMatrix sim l l i i = 0 := by
  intro i
  induction i with
  | zero => simpa using costMatrix_zero_left sim l l 0
  | succ i ih =>
    rw [costMatrix_succ_succ, hself (l.getD i ""), ih]
    have h₁ := costMatrix_nonneg sim l l h1 (i + 1) i
    have h₂ := costMatrix_nonneg sim l l h1 i (i + 1)
    rw [show (0 : ℚ) + (1 - 1) = 0 from by norm_num,
      min_eq_left (by linarith : (0 : ℚ) ≤ costMatrix sim l l (i + 1) i + 1),
      min_eq_left (by linarith : (0 : ℚ) ≤ costMatrix sim l l i (i + 1) + 1)]

theorem backtrack_diag (sim : String → String → ℚ) (l : List String)
    (h1 : ∀ a b, sim a b ≤ 1) (hself : ∀ a, sim a a = 1) :
    ∀ i, i ≤ l.length →
      backtrack sim l l i i = ((l.take i).reverse).map fun u => ⟨u, u, 1⟩ := by
  intro i
  induction i with
  | zero => intro _; simp [backtrack_zero_zero]
  | succ i ih =>
    intro hi
    rw [backtrack_succ_succ]
    rw [costMatrix_diag sim l h1 hself (i + 1), costMatrix_diag sim l h1 hself i,
      hself (l.getD i "")]
    rw [if_pos (by norm_num)]
    rw [ih (by omega)]
    have hlt : i < l.length := by omega
    rw [List.getD_eq_getElem l "" hlt, List.map_reverse, List.map_reverse,
      List.take_succ, List.getElem?_eq_getElem hlt]
    simp
    rw [List.take_succ, List.getElem?_eq_getElem (by simpa using hlt), List.getElem_map]
    simp [List.reverse_append]

/-! ## Draining an exhausted side, and the two alignment paths -/

theorem map_reverse_take_succ {α β : Type} (f : α → β) (l : List α) (d : α) (i : ℕ)
    (hlt : i < l.length) :
    f (l.getD i d) :: ((l.take i).reverse).map f = ((l.take (i + 1)).reverse).map f := by
  rw [List.getD_eq_getElem l d hlt, List.map_reverse, List.map_reverse,
    List.take_succ, List.getElem?_eq_getElem hlt]
  simp
  rw [List.take_succ, List.getElem?_eq_getElem (by simpa using hlt), List.getElem_map]
  simp [List.reverse_append]

theorem backtrack_left_exhausted (sim : String → String → ℚ)
    (reference actual : List String) :
    ∀ j, j ≤ actual.length →
      backtrack sim reference actual 0 j =
        ((actual.take j).reverse).map fun a => ⟨"", a, 0⟩ := by
  intro j
  induction j with
  | zero => intro _; simp [backtrack_zero_zero]
  | succ j ih =>
    intro hj
    rw [backtrack_zero_succ, ih (by omega)]
    exact map_reverse_take_succ (fun a => (⟨"", a, 0⟩ : AlignmentEntry)) actual "" j (by omega)

theorem backtrack_right_exhausted (sim : String → String → ℚ)
    (reference actual : List String) :
    ∀ i, i ≤ reference.length →
      backtrack sim reference actual i 0 =
        ((reference.take i).reverse).map fun r => ⟨r, "", 0⟩ := by
  intro i
  induction i with
  | zero => intro _; simp [backtrack_zero_zero]
  | succ i ih =>
    intro hi
    rw [backtrack_succ_zero, ih (by omega)]
    exact map_reverse_take_succ (fun r => (⟨r, "", 0⟩ : AlignmentEntry)) reference "" i (by omega)

theorem align_phonetics_nil_left (simE : String → String → Except Unit ℚ)
    (actual : List String) :
    align_phonetics simE [] actual = actual.map fun a => ⟨"", a, 0⟩ := by
  unfold align_phonetics
  rw [if_pos (by simp)]
  unfold alignDP
  rw [show ([] : List String).length = 0 from rfl,
    backtrack_left_exhausted _ _ _ actual.length le_rfl]
  simp [List.map_reverse]

theorem align_phonetics_nil_right (simE : String → String → Except Unit ℚ)
    (reference : List String) :
    align_phonetics simE reference [] = reference.map fun r => ⟨r, "", 0⟩ := by
  unfold align_phonetics
  rw [if_pos (by simp)]
  unfold alignDP
  rw [show ([] : List String).length = 0 from rfl,
    backtrack_right_exhausted _ _ _ reference.length le_rfl]
  simp [List.map_reverse]

theorem align_phonetics_simOk (env : PhonEnv) (reference actual : List String) :
    align_phonetics (simOk env) reference actual =
      alignDP (calculate_phoneme_similarity env) reference actual := by
  unfold align_phonetics
  rw [if_pos (by simp [simOk, exceptOk])]
  have hf : (fun r a => ((simOk env r a).toOption).getD 0) =
      calculate_phoneme_similarity env := by
    funext r a
    simp [simOk, Except.toOption]
  rw [hf]

/-! ## Entry sides: never both empty -/

theorem getD_mem_of_lt {α : Type} {l : List α} {i : ℕ} (h : i < l.length) (d : α) :
    l.getD i d ∈ l := by
  rw [List.getD_eq_getElem l d h]
  exact List.getElem_mem h

theorem backtrack_entry_sides (sim : String → String → ℚ) (reference actual : List String)
    (href : ∀ u ∈ reference, u ≠ "") (hact : ∀ u ∈ actual, u ≠ "") :
    ∀ i j, i ≤ reference.length → j ≤ actual.length →
      ∀ e ∈ backtrack sim reference actual i j, ¬(e.ref = "" ∧ e.act = "") := by
  intro i
  induction i with
  | zero =>
    intro j
    induction j with
    | zero =>
      intro _ _ e he
      rw [backtrack_zero_zero] at he
      cases he
    | succ j ihj =>
      intro hi hj e he
      rw [backtrack_zero_succ] at he
      rcases List.mem_cons.mp he with rfl | he
      · rintro ⟨-, h2⟩
        exact hact _ (getD_mem_of_lt (by omega) "") h2
      · exact ihj hi (by omega) e he
  | succ i ih =>
    intro j
    induction j with
    | zero =>
      intro hi hj e he
      rw [backtrack_succ_zero] at he
      rcases List.mem_cons.mp he with rfl | he
      · rintro ⟨h1, -⟩
        exact href _ (getD_mem_of_lt (by omega) "") h1
      · exact ih 0 (by omega) hj e he
    | succ j ihj =>
      intro hi hj e he
      rw [backtrack_succ_succ] at he
      split_ifs at he
      · rcases List.mem_cons.mp he with rfl | he
        · rintro ⟨h1, -⟩
          exact href _ (getD_mem_of_lt (by omega) "") h1
        · exact ih j (by omega) (by omega) e he
      · rcases List.mem_cons.mp he with rfl | he
        · rintro ⟨-, h2⟩
          exact hact _ (getD_mem_of_lt (by omega) "") h2
        · exact ihj hi (by omega) e he
      · rcases List.mem_cons.mp he with rfl | he
        · rintro ⟨h1, -⟩
          exact href _ (getD_mem_of_lt (by omega) "") h1
        · exact ih (j + 1) (by omega) hj e he

theorem align_entry_sides (simE : String → String → Except Unit ℚ)
    (reference actual : List String)
    (href : ∀ u ∈ reference, u ≠ "") (hact : ∀ u ∈ actual, u ≠ "") :
    ∀ e ∈ align_phonetics simE reference actual, ¬(e.ref = "" ∧ e.act = "") := by
  intro e he
  unfold align_phonetics at he
  split at he
  · unfold alignDP at he
    rw [List.mem_reverse] at he
    exact backtrack_entry_sides _ _ _ href hact _ _ le_rfl le_rfl e he
  · unfold fallback_alignment at he
    rcases List.mem_map.mp he with ⟨i, hi, rfl⟩
    rw [List.mem_range] at hi
    rintro ⟨h1, h2⟩
    by_cases hr : i < reference.length
    · rw [if_pos hr] at h1
      exact href _ (getD_mem_of_lt hr "") h1
    · by_cases ha : i < actual.length
      · rw [if_pos ha] at h2
        exact hact _ (getD_mem_of_lt ha "") h2
      · omega

/-! ## The proficiency estimator -/

/-- The level components of a threshold table are non-increasing along the
table (the order in which `_estimate_fsi_level` scans them). -/
def levelsDescending (ps : List (ℚ × ℚ)) : Prop :=
  List.Pairwise (fun p q => q.1 ≤ p.1) ps

theorem estimate_go_le_bound (s L : ℚ) :
    ∀ ps : List (ℚ × ℚ), (∀ p ∈ ps, p.1 ≤ L) → 0 ≤ L → estimate_go s ps ≤ L := by
  intro ps
  induction ps with
  | nil => intro _ hL; simpa [estimate_go] using hL
  | cons p rest ih =>
    intro hb hL
    rcases p with ⟨l, t⟩
    rw [estimate_go]
    split_ifs
    · exact hb (l, t) (List.mem_cons_self _ _)
    · exact ih (fun q hq => hb q (List.mem_cons_of_mem _ hq)) hL

theorem estimate_go_mono (s1 s2 : ℚ) (h : s1 ≤ s2) :
    ∀ ps : List (ℚ × ℚ), (∀ p ∈ ps, 0 ≤ p.1) → levelsDescending ps →
      estimate_go s1 ps ≤ estimate_go s2 ps := by
  intro ps
  induction ps with
  | nil => intro _ _; simp [estimate_go]
  | cons p rest ih =>
    intro hnn hpw
    rcases p with ⟨l, t⟩
    rcases List.pairwise_cons.mp hpw with ⟨hhead, htail⟩
    rw [estimate_go, estimate_go]
    split_ifs with h1 h2 h2
    · exact le_rfl
    · exact absurd (le_trans h1 h) h2
    · exact estimate_go_le_bound s1 l rest (fun q hq => hhead q hq)
        (hnn (l, t) (List.mem_cons_self _ _))
    · exact ih (fun q hq => hnn q (List.mem_cons_of_mem _ hq)) htail

theorem estimate_go_ge (s l t : ℚ) :
    ∀ ps : List (ℚ × ℚ), levelsDescending ps → (l, t) ∈ ps → t ≤ s →
      l ≤ estimate_go s ps := by
  intro ps
  induction ps with
  | nil => intro _ hm; cases hm
  | cons p rest ih =>
    intro hpw hm hts
    rcases p with ⟨l0, t0⟩
    rcases List.pairwise_cons.mp hpw with ⟨hhead, htail⟩
    rw [estimate_go]
    split_ifs with h0
    · rcases List.mem_cons.mp hm with heq | hm'
      · rw [(Prod.mk.injEq _ _ _ _).mp heq |>.1]
      · exact hhead (l, t) hm'
    · rcases List.mem_cons.mp hm with heq | hm'
      · exact absurd (((Prod.mk.injEq _ _ _ _).mp heq).2 ▸ hts) h0
      · exact ih htail hm' hts

theorem estimate_go_mem (s : ℚ) :
    ∀ ps : List (ℚ × ℚ), estimate_go s ps = 0 ∨
      ∃ t, (estimate_go s ps, t) ∈ ps ∧ t ≤ s := by
  intro ps
  induction ps with
  | nil => left; rfl
  | cons p rest ih =>
    rcases p with ⟨l, t⟩
    rw [estimate_go]
    split_ifs with h0
    · right; exact ⟨t, List.mem_cons_self _ _, h0⟩
    · rcases ih with h | ⟨t', hm, ht'⟩
      · left; exact h
      · right; exact ⟨t', List.mem_cons_of_mem _ hm, ht'⟩

theorem fsi_rev : fsi_thresholds.reverse =
    [(5.0, 0.98), (4.5, 0.95), (4.0, 0.90), (3.5, 0.85), (3.0, 0.80), (2.5, 0.73),
     (2.0, 0.65), (1.5, 0.55), (1.0, 0.45), (0.5, 0.3), (0.0, 0.0)] := rfl

theorem fsi_desc : levelsDescending fsi_thresholds.reverse := by
  rw [fsi_rev]
  norm_num [levelsDescending, List.pairwise_cons]

theorem fsi_nonneg_levels : ∀ p ∈ fsi_thresholds.reverse, 0 ≤ p.1 := by
  rw [fsi_rev]
  intro p hp
  fin_cases hp <;> norm_num

/-! ## Phoneme and word walk -/

theorem analyze_phonemes_eq (alignment : List AlignmentEntry)
    (focus_phonemes : Option (List String)) :
    analyze_phonemes alignment focus_phonemes =
      (nonInsertion alignment).map fun e =>
        { phoneme := e.ref
          expected := e.ref
          actual := if e.act = "" then "?" else e.act
          accuracy_score := e.similarity
          feedback := generate_phoneme_feedback e.ref e.similarity
          is_critical := true } := by
  induction alignment with
  | nil => rfl
  | cons e rest ih =>
    by_cases h : e.ref = "" <;>
      simp [analyze_phonemes, nonInsertion, List.filterMap_cons, List.filter_cons, h] <;>
      simpa [analyze_phonemes, nonInsertion] using ih

theorem analyze_words_go_length (pa : List PhonemeAnalysis) (wd : ℚ) :
    ∀ (ws : List String) (i0 idx : ℕ),
      (analyze_words_go pa wd ws i0 idx).length = ws.length := by
  intro ws
  induction ws with
  | nil => intro i0 idx; rfl
  | cons w rest ih => intro i0 idx; simp [analyze_words_go, ih]

theorem attributedStart_zero (words : List String) : attributedStart words 0 = 0 := by
  simp [attributedStart]

theorem attributedStart_cons_succ (w : String) (ws : List String) (k : ℕ) :
    attributedStart (w :: ws) (k + 1) =
      estimate_phoneme_count w + attributedStart ws k := by
  simp [attributedStart, List.take_succ_cons]

theorem analyze_words_go_accuracy (pa : List PhonemeAnalysis) (wd : ℚ) :
    ∀ (ws : List String) (k : ℕ), k < ws.length → ∀ (i0 idx : ℕ),
      ((analyze_words_go pa wd ws i0 idx).getD k defaultWordAnalysis).accuracy_score =
        (if ((pa.drop (idx + attributedStart ws k)).take
            (estimate_phoneme_count (ws.getD k ""))) = [] then 0.5
         else ((((pa.drop (idx + attributedStart ws k)).take
            (estimate_phoneme_count (ws.getD k ""))).map fun p => p.accuracy_score).sum) /
            (((pa.drop (idx + attributedStart ws k)).take
            (estimate_phoneme_count (ws.getD k ""))).length)) := by
  intro ws
  induction ws with
  | nil => intro k hk; simp at hk
  | cons w rest ih =>
    intro k hk i0 idx
    cases k with
    | zero =>
      simp only [analyze_words_go, List.getD_cons_zero, attributedStart_zero,
        Nat.add_zero]
    | succ k =>
      simp only [analyze_words_go, List.getD_cons_succ]
      rw [ih k (Nat.lt_of_succ_lt_succ hk) (i0 + 1)
        (idx + estimate_phoneme_count w)]
      rw [attributedStart_cons_succ, Nat.add_assoc]

/-! ## Further helpers: identical sequences, single pairs, fallback entries -/

theorem align_identical (env : PhonEnv) (l : List String) :
    align_phonetics (simOk env) l l = l.map fun u => ⟨u, u, 1⟩ := by
  rw [align_phonetics_simOk]
  unfold alignDP
  rw [backtrack_diag (calculate_phoneme_similarity env) l (sim_le_one env) (sim_self env)
    l.length le_rfl]
  simp [List.map_reverse, List.take_length]

theorem alignDP_single (sim1 : String → String → ℚ) (r a : String)
    (h0 : 0 ≤ sim1 r a) (h1 : sim1 r a ≤ 1) :
    alignDP sim1 [r] [a] = [⟨r, a, sim1 r a⟩] := by
  unfold alignDP
  have hgr : ([r] : List String).getD 0 "" = r := rfl
  have hga : ([a] : List String).getD 0 "" = a := rfl
  have hc00 : costMatrix sim1 [r] [a] 0 0 = 0 := by
    simpa using costMatrix_zero_left sim1 [r] [a] 0
  have hc10 : costMatrix sim1 [r] [a] 1 0 = 1 := by
    simpa using costMatrix_succ_zero sim1 [r] [a] 0
  have hc01 : costMatrix sim1 [r] [a] 0 1 = 1 := by
    simpa using costMatrix_zero_left sim1 [r] [a] 1
  have hc11 : costMatrix sim1 [r] [a] 1 1 =
      costMatrix sim1 [r] [a] 0 0 + (1 - sim1 r a) := by
    rw [costMatrix_succ_succ, hgr, hga, hc00, hc10, hc01]
    have hin : min ((0 : ℚ) + (1 - sim1 r a)) (1 + 1) = 0 + (1 - sim1 r a) :=
      min_eq_left (by linarith)
    rw [hin]
    exact min_eq_left (by linarith)
  show (backtrack sim1 [r] [a] 1 1).reverse = [⟨r, a, sim1 r a⟩]
  rw [show (1 : ℕ) = 0 + 1 from rfl, backtrack_succ_succ, hgr, hga]
  rw [if_pos (by simpa [hgr, hga] using hc11)]
  rw [backtrack_zero_zero]
  rfl

theorem align_single (env : PhonEnv) (r a : String) :
    align_phonetics (simOk env) [r] [a] =
      [⟨r, a, calculate_phoneme_similarity env r a⟩] := by
  rw [align_phonetics_simOk]
  exact alignDP_single _ r a (sim_nonneg env r a) (sim_le_one env r a)

theorem sim_envNone_fallback (r a : String) (hne : r ≠ a) (hr : r ≠ "") (ha : a ≠ "")
    (hl : pyLower r ≠ pyLower a) :
    calculate_phoneme_similarity envNone r a = 0.3 := by
  rw [calculate_phoneme_similarity, if_neg hne,
    if_neg (by rintro (h | h) <;> [exact hr h; exact ha h])]
  simp only [envNone]
  rw [if_neg hl]

theorem fallback_alignment_getD (reference actual : List String) (i : ℕ)
    (d : AlignmentEntry) (hi : i < max reference.length actual.length) :
    (fallback_alignment reference actual).getD i d =
      ⟨if i < reference.length then reference.getD i "" else "",
       if i < actual.length then actual.getD i "" else "", 0.5⟩ := by
  unfold fallback_alignment
  rw [List.getD_eq_getElem _ d (by simpa using hi), List.getElem_map, List.getElem_range]

/-! ## Claim theorems -/

/-- C2: for every sequence of length `n`, aligning the empty sequence against
it (as reference against actual, or actual against reference) yields exactly
`n` alignment entries, each an insertion (respectively deletion) with one side
empty and similarity `0.0`. -/
theorem empty_sequence_alignment (simE : String → String → Except Unit ℚ)
    (l : List String) :
    align_phonetics simE [] l = l.map (fun a => ⟨"", a, 0⟩) ∧
    align_phonetics simE l [] = l.map (fun r => ⟨r, "", 0⟩) ∧
    (align_phonetics simE [] l).length = l.length ∧
    (align_phonetics simE l []).length = l.length :=
  ⟨align_phonetics_nil_left simE l, align_phonetics_nil_right simE l,
   by rw [align_phonetics_nil_left]; simp,
   by rw [align_phonetics_nil_right]; simp⟩

/-- C3: for every phonetic unit `a` the similarity function gives
`sim(a,a) = 1.0`, and for every non-empty unit `a` it gives `sim('',a) = 0.0`,
whatever the external feature encoding provides. -/
theorem similarity_self_and_empty_ref :
    (∀ (env : PhonEnv) (a : String), calculate_phoneme_similarity env a a = 1) ∧
    (∀ (env : PhonEnv) (a : String), a ≠ "" →
      calculate_phoneme_similarity env "" a = 0) := by
  refine ⟨sim_self, ?_⟩
  intro env a ha
  rw [calculate_phoneme_similarity, if_neg (fun h => ha h.symm), if_pos (Or.inl rfl)]

/-- C10: the phoneme similarity of the empty string against itself is `1.0`,
not `0.0`, because the equality check precedes the emptiness check. -/
theorem similarity_empty_pair_is_one (env : PhonEnv) :
    calculate_phoneme_similarity env "" "" = 1 :=
  sim_self env ""

/-- C4: the FSI proficiency estimator returns the highest level of the
threshold table whose threshold is at most the overall score (`0.0` when the
score is below every threshold): any qualifying level bounds the result from
below, the result is `0.0` or itself a qualifying level, the estimator is
monotonically non-decreasing, `estimate(0.0) = 0.0` and `estimate(0.98) = 5.0`. -/
theorem fsi_estimator_monotone_highest :
    (∀ s l t : ℚ, (l, t) ∈ fsi_thresholds → t ≤ s → l ≤ estimate_fsi_level s) ∧
    (∀ s : ℚ, estimate_fsi_level s = 0 ∨
      ∃ t, (estimate_fsi_level s, t) ∈ fsi_thresholds ∧ t ≤ s) ∧
    (∀ s1 s2 : ℚ, s1 ≤ s2 → estimate_fsi_level s1 ≤ estimate_fsi_level s2) ∧
    estimate_fsi_level 0 = 0 ∧ estimate_fsi_level 0.98 = 5 := by
  refine ⟨?_, ?_, ?_, ?_, ?_⟩
  · intro s l t hm hts
    exact estimate_go_ge s l t _ fsi_desc (List.mem_reverse.mpr hm) hts
  · intro s
    rcases estimate_go_mem s fsi_thresholds.reverse with h | ⟨t, hm, ht⟩
    · left; exact h
    · right; exact ⟨t, List.mem_reverse.mp hm, ht⟩
  · intro s1 s2 h
    exact estimate_go_mono s1 s2 h _ fsi_nonneg_levels fsi_desc
  · norm_num [estimate_fsi_level, fsi_rev, estimate_go]
  · norm_num [estimate_fsi_level, fsi_rev, estimate_go]

/-- C7 counterexample: a sequence of 2001 units — beyond the claimed cap of
2000 — is aligned normally into 2001 insertion entries; no rejection and no
`SequenceTooLongError` exists anywhere in the alignment path. -/
theorem sequence_cap_counterexample :
    align_phonetics (simOk envNone) [] (List.replicate 2001 "a") =
      List.replicate 2001 (⟨"", "a", 0⟩ : AlignmentEntry) := by
  rw [align_phonetics_nil_left, List.map_replicate]

/-- C7 amended: the alignment operation imposes no length cap and defines no
rejection error; sequences of any length, 2000 units and beyond included, are
aligned normally, one entry per unit. -/
theorem no_sequence_length_cap (simE : String → String → Except Unit ℚ)
    (n : ℕ) (u : String) :
    align_phonetics simE [] (List.replicate n u) =
      List.replicate n ⟨"", u, 0⟩ ∧
    align_phonetics simE (List.replicate n u) [] =
      List.replicate n ⟨u, "", 0⟩ ∧
    (align_phonetics simE [] (List.replicate n u)).length = n := by
  refine ⟨?_, ?_, ?_⟩
  · rw [align_phonetics_nil_left, List.map_replicate]
  · rw [align_phonetics_nil_right, List.map_replicate]
  · rw [align_phonetics_nil_left, List.map_replicate, List.length_replicate]

/-- C9: for input sequences of non-empty units, every alignment entry — on the
dynamic-programming path and on the failure-fallback path alike — has at most
one empty side, never both. -/
theorem alignment_entry_one_side_nonempty (simE : String → String → Except Unit ℚ)
    (reference actual : List String)
    (href : ∀ u ∈ reference, u ≠ "") (hact : ∀ u ∈ actual, u ≠ "") :
    ∀ e ∈ align_phonetics simE reference actual, ¬(e.ref = "" ∧ e.act = "") :=
  align_entry_sides simE reference actual href hact

/-- C9 witness: at the concrete input `["a"]` against `["b"]` the hypotheses
hold and the single produced entry has no empty side. -/
theorem alignment_entry_one_side_nonempty_witness :
    (∀ u ∈ (["a"] : List String), u ≠ "") ∧
    (∀ u ∈ (["b"] : List String), u ≠ "") ∧
    ¬((⟨"a", "b", 0.3⟩ : AlignmentEntry).ref = "" ∧
      (⟨"a", "b", 0.3⟩ : AlignmentEntry).act = "") := by
  refine ⟨by decide, by decide, ?_⟩
  have hsim : calculate_phoneme_similarity envNone "a" "b" = 0.3 :=
    sim_envNone_fallback "a" "b" (by decide) (by decide) (by decide) (by decide)
  have halign : align_phonetics (simOk envNone) ["a"] ["b"] = [⟨"a", "b", 0.3⟩] := by
    rw [align_single, hsim]
  exact alignment_entry_one_side_nonempty (simOk envNone) ["a"] ["b"]
    (by decide) (by decide) ⟨"a", "b", 0.3⟩ (by rw [halign]; exact List.mem_singleton.mpr rfl)

/-- C6: whenever an internal failure occurs during alignment (some similarity
call raising), the operation returns the naive 1:1 positional fallback instead
of propagating the exception: entries over the overlapping index range pair
`reference[i]` with `actual[i]` at fixed similarity `0.5`, and the remainder of
the longer sequence becomes deletion (respectively insertion) entries. -/
theorem alignment_failure_fallback (simE : String → String → Except Unit ℚ)
    (reference actual : List String)
    (hfail : (reference.all fun r => actual.all fun a => exceptOk (simE r a)) = false) :
    align_phonetics simE reference actual = fallback_alignment reference actual ∧
    (align_phonetics simE reference actual).length =
      max reference.length actual.length ∧
    (∀ i, i < min reference.length actual.length →
      (align_phonetics simE reference actual).getD i ⟨"", "", 0⟩ =
        ⟨reference.getD i "", actual.getD i "", 0.5⟩) ∧
    (∀ i, min reference.length actual.length ≤ i →
        i < max reference.length actual.length →
      (align_phonetics simE reference actual).getD i ⟨"", "", 0⟩ =
        (if i < reference.length then ⟨reference.getD i "", "", 0.5⟩
         else ⟨"", actual.getD i "", 0.5⟩)) := by
  have halign : align_phonetics simE reference actual =
      fallback_alignment reference actual := by
    unfold align_phonetics
    rw [hfail]
    simp
  refine ⟨halign, ?_, ?_, ?_⟩
  · rw [halign]
    simp [fallback_alignment]
  · intro i hi
    rw [halign, fallback_alignment_getD reference actual i _ (by omega)]
    rw [if_pos (by omega), if_pos (by omega)]
  · intro i hmin hmax
    rw [halign, fallback_alignment_getD reference actual i _ hmax]
    by_cases hr : i < reference.length
    · rw [if_pos hr, if_pos hr, if_neg (by omega)]
    · rw [if_neg hr, if_neg hr, if_pos (by omega)]

/-- C6 witness: with a similarity method that always raises, the concrete
input `["a", "b"]` against `["c"]` takes the fallback: the overlap pairs
`("a", "c")` at similarity `0.5` and the remainder is the deletion entry
`("b", "")`. -/
theorem alignment_failure_fallback_witness :
    ((["a", "b"].all fun r => ["c"].all fun a => exceptOk (simBad r a)) = false) ∧
    (align_phonetics simBad ["a", "b"] ["c"] = fallback_alignment ["a", "b"] ["c"] ∧
     (align_phonetics simBad ["a", "b"] ["c"]).length =
       max (["a", "b"] : List String).length (["c"] : List String).length ∧
     (∀ i, i < min (["a", "b"] : List String).length (["c"] : List String).length →
       (align_phonetics simBad ["a", "b"] ["c"]).getD i ⟨"", "", 0⟩ =
         ⟨(["a", "b"] : List String).getD i "", (["c"] : List String).getD i "", 0.5⟩) ∧
     (∀ i, min (["a", "b"] : List String).length (["c"] : List String).length ≤ i →
         i < max (["a", "b"] : List String).length (["c"] : List String).length →
       (align_phonetics simBad ["a", "b"] ["c"]).getD i ⟨"", "", 0⟩ =
         (if i < (["a", "b"] : List String).length then
           ⟨(["a", "b"] : List String).getD i "", "", 0.5⟩
          else ⟨"", (["c"] : List String).getD i "", 0.5⟩))) :=
  ⟨rfl, alignment_failure_fallback simBad ["a", "b"] ["c"] rfl⟩

/-- C8: for every word of the reference text, the word-level accuracy equals
the arithmetic mean of the similarity scores of the non-insertion alignment
entries attributed to it, and equals exactly `0.5` when no entries are
attributable; insertion entries (empty reference side) are filtered out before
attribution and never count toward any word's accuracy. -/
theorem word_accuracy_is_mean (alignment : List AlignmentEntry)
    (focus_phonemes : Option (List String)) (reference_text : String)
    (duration : ℚ) (i : ℕ) (hi : i < (pySplit reference_text).length) :
    (analyze_words reference_text (analyze_phonemes alignment focus_phonemes)
        duration).length = (pySplit reference_text).length ∧
    ((analyze_words reference_text (analyze_phonemes alignment focus_phonemes)
        duration).getD i defaultWordAnalysis).accuracy_score =
      (if attributedSlice alignment (pySplit reference_text) i = [] then 0.5
       else (((attributedSlice alignment (pySplit reference_text) i).map
            fun e => e.similarity).sum) /
          ((attributedSlice alignment (pySplit reference_text) i).length)) := by
  have hne : ¬ pySplit reference_text = [] := by
    intro h
    rw [h] at hi
    simp at hi
  have hwords : analyze_words reference_text
      (analyze_phonemes alignment focus_phonemes) duration =
      analyze_words_go (analyze_phonemes alignment focus_phonemes)
        (duration / ((pySplit reference_text).length : ℚ)) (pySplit reference_text) 0 0 := by
    unfold analyze_words
    rw [if_neg hne]
  constructor
  · rw [hwords, analyze_words_go_length]
  · rw [hwords, analyze_words_go_accuracy _ _ _ i hi 0 0]
    rw [analyze_phonemes_eq]
    simp only [Nat.zero_add, ← List.map_drop, ← List.map_take, List.map_eq_nil_iff,
      List.map_map, List.length_map, attributedSlice]
    rfl

/-- C8 witness: on a concrete three-entry alignment (one of them an insertion)
and the one-word text `"ab"`, the hypothesis holds and both conclusions are
delivered by the theorem. -/
theorem word_accuracy_is_mean_witness :
    0 < (pySplit "ab").length ∧
    ((analyze_words "ab" (analyze_phonemes
        [⟨"x", "y", 0.7⟩, ⟨"", "z", 0⟩, ⟨"w", "", 0.2⟩] none) 3).length =
      (pySplit "ab").length ∧
    ((analyze_words "ab" (analyze_phonemes
        [⟨"x", "y", 0.7⟩, ⟨"", "z", 0⟩, ⟨"w", "", 0.2⟩] none) 3).getD 0
        defaultWordAnalysis).accuracy_score =
      (if attributedSlice [⟨"x", "y", 0.7⟩, ⟨"", "z", 0⟩, ⟨"w", "", 0.2⟩]
          (pySplit "ab") 0 = [] then 0.5
       else (((attributedSlice [⟨"x", "y", 0.7⟩, ⟨"", "z", 0⟩, ⟨"w", "", 0.2⟩]
            (pySplit "ab") 0).map fun e => e.similarity).sum) /
          ((attributedSlice [⟨"x", "y", 0.7⟩, ⟨"", "z", 0⟩, ⟨"w", "", 0.2⟩]
            (pySplit "ab") 0).length))) :=
  ⟨by decide, word_accuracy_is_mean _ none "ab" 3 0 (by decide)⟩

/-- C1: for identical reference and actual phonetic sequences the alignment has
exactly one entry per unit, every entry of similarity `1.0`; on the four-unit
example `["h", "ə", "l", "oʊ"]` the alignment has 4 entries and the pipeline
outputs `overall_score = 1.0` with quality rating `excellent`. -/
theorem identical_sequences_full_score :
    (∀ (env : PhonEnv) (l : List String),
      align_phonetics (simOk env) l l = l.map fun u => ⟨u, u, 1⟩) ∧
    (∀ (env : PhonEnv) (l : List String),
      (align_phonetics (simOk env) l l).length = l.length) ∧
    (∀ env : PhonEnv, align_phonetics (simOk env) helloUnits helloUnits =
      [⟨"h", "h", 1⟩, ⟨"ə", "ə", 1⟩, ⟨"l", "l", 1⟩, ⟨"oʊ", "oʊ", 1⟩]) ∧
    (∀ (env : PhonEnv) (duration : ℚ),
      (calculate_scores (analyze_words "hello"
        (analyze_phonemes (align_phonetics (simOk env) helloUnits helloUnits) none)
        duration)).overall_score = 1 ∧
      determine_quality_rating ((calculate_scores (analyze_words "hello"
        (analyze_phonemes (align_phonetics (simOk env) helloUnits helloUnits) none)
        duration)).overall_score) = PronunciationQuality.excellent) := by
  refine ⟨align_identical, ?_, ?_, ?_⟩
  · intro env l
    rw [align_identical]
    simp
  · intro env
    rw [align_identical]
    rfl
  · intro env duration
    have hpipe : (calculate_scores (analyze_words "hello"
        (analyze_phonemes (align_phonetics (simOk env) helloUnits helloUnits) none)
        duration)).overall_score = 1 := by
      rw [align_identical]
      have hpa : analyze_phonemes (helloUnits.map fun u => ⟨u, u, 1⟩) none =
          [⟨"h", "h", "h", 1, generate_phoneme_feedback "h" 1, true⟩,
           ⟨"ə", "ə", "ə", 1, generate_phoneme_feedback "ə" 1, true⟩,
           ⟨"l", "l", "l", 1, generate_phoneme_feedback "l" 1, true⟩,
           ⟨"oʊ", "oʊ", "oʊ", 1, generate_phoneme_feedback "oʊ" 1, true⟩] := by rfl
      rw [hpa]
      have hsplit : pySplit "hello" = ["hello"] := by decide
      have hcnt : (1 ⊔ ("hello" : String).length / 2) = 2 := by decide
      unfold analyze_words
      rw [hsplit, if_neg (by simp)]
      simp only [analyze_words_go, estimate_phoneme_count, hcnt]
      norm_num [calculate_scores, List.take_succ_cons]
      exact List.cons_ne_nil _ _
    refine ⟨hpipe, ?_⟩
    rw [hpipe]
    norm_num [determine_quality_rating]

/-! ## Degraded mode (claim C5) -/

theorem align_envNone_placeholder :
    align_phonetics (simOk envNone) ["a"] ["ə"] = [⟨"a", "ə", 0.3⟩] := by
  have hsim : calculate_phoneme_similarity envNone "a" "ə" = 0.3 :=
    sim_envNone_fallback "a" "ə" (by decide) (by decide) (by decide) (by decide)
  rw [align_single, hsim]

theorem degraded_pipeline_overall :
    (calculate_scores (analyze_words "a"
      (analyze_phonemes [⟨"a", "ə", (0.3 : ℚ)⟩] none) 1)).overall_score = 0.3 := by
  have hpa : analyze_phonemes [⟨"a", "ə", (0.3 : ℚ)⟩] none =
      [⟨"a", "a", "ə", 0.3, generate_phoneme_feedback "a" 0.3, true⟩] := by rfl
  rw [hpa]
  have hsplit : pySplit "a" = ["a"] := by decide
  have hcnt : (1 ⊔ ("a" : String).length / 2) = 1 := by decide
  unfold analyze_words
  rw [hsplit, if_neg (by simp)]
  simp only [analyze_words_go, estimate_phoneme_count, hcnt]
  norm_num [calculate_scores, List.take_succ_cons]

/-- C5 counterexample: in degraded mode (no feature encoding available), the
placeholder unit `"ə"` of the classifier stub aligned against the non-empty
reference unit `"a"` receives similarity `0.3` — not `0.0` — and the pipeline
outputs `overall_score = 0.3` and FSI level `0.5`, both non-zero. -/
theorem degraded_placeholder_counterexample :
    align_phonetics (simOk envNone) ["a"] ["ə"] = [⟨"a", "ə", 0.3⟩] ∧
    calculate_phoneme_similarity envNone "a" "ə" = 0.3 ∧ (0.3 : ℚ) ≠ 0 ∧
    (calculate_scores (analyze_words "a"
      (analyze_phonemes (align_phonetics (simOk envNone) ["a"] ["ə"]) none)
      1)).overall_score = 0.3 ∧
    estimate_fsi_level 0.3 = 0.5 ∧ (0.5 : ℚ) ≠ 0 := by
  refine ⟨align_envNone_placeholder,
    sim_envNone_fallback "a" "ə" (by decide) (by decide) (by decide) (by decide),
    by norm_num, ?_, ?_, by norm_num⟩
  · rw [align_envNone_placeholder]
    exact degraded_pipeline_overall
  · norm_num [estimate_fsi_level, fsi_rev, estimate_go]

/-- C5 amended: in degraded mode every alignment entry pairing a placeholder
against a differing non-empty reference unit (no case-insensitive match) has
similarity `0.3` — the string-comparison fallback — rather than `0.0`; on the
all-placeholder one-word example the pipeline still returns a well-formed
result with `overall_score = 0.3` and `fsi_estimated_level = 0.5`. -/
theorem degraded_placeholder_amended :
    (∀ r a : String, r ≠ a → r ≠ "" → a ≠ "" → pyLower r ≠ pyLower a →
      calculate_phoneme_similarity envNone r a = 0.3) ∧
    align_phonetics (simOk envNone) ["a"] ["ə"] = [⟨"a", "ə", 0.3⟩] ∧
    (calculate_scores (analyze_words "a"
      (analyze_phonemes (align_phonetics (simOk envNone) ["a"] ["ə"]) none)
      1)).overall_score = 0.3 ∧
    estimate_fsi_level ((calculate_scores (analyze_words "a"
      (analyze_phonemes (align_phonetics (simOk envNone) ["a"] ["ə"]) none)
      1)).overall_score) = 0.5 := by
  refine ⟨sim_envNone_fallback, align_envNone_placeholder, ?_, ?_⟩
  · rw [align_envNone_placeholder]
    exact degraded_pipeline_overall
  · rw [align_envNone_placeholder, degraded_pipeline_overall]
    norm_num [estimate_fsi_level, fsi_rev, estimate_go]

end PronunciationAnalyzer
